import Mathlib

/-!
Shallow embedding of `ensembles.py` (aphids-forecast): date mapping,
longitude normalization, meshgrid expansion, bounding-box cropping,
winter-month filtering, seasonal-cube aggregation, dispatch selection
and model-name extraction, with theorems checking the specification.

Conventions of the embedding:
* machine floats carrying data values and coordinates are modelled as `Rat`;
* `np.mean` over an empty selection yields NaN; NaN cells are modelled as
  `none : Option Rat`, a nonempty mean as `some` of the exact rational mean;
* numpy boolean `argmax` (first `true`, `0` when all are `false`) and
  Python negative indexing are modelled explicitly.
-/

namespace Ensembles

/-! ### Longitude normalization (worker, line 69)
`lons[lons >= 180] = -(360 - lons[lons >= 180])`, elementwise `v - 360`. -/

def normLon (v : Rat) : Rat :=
  if 180 ≤ v then v - 360 else v

/-! ### Winter-month filter (load_winteravg, lines 262-264)
`data[np.any([data[:, cmonth] == m for m in (1, 2, 3, 12)], axis=0)]` -/

structure Row where
  year : Int
  month : Int
  loc : Int
  mdl : Int
  temp : Rat
deriving DecidableEq, Repr

def winterKeep (r : Row) : Bool :=
  r.month == 1 || r.month == 2 || r.month == 3 || r.month == 12

def winterFilter (data : List Row) : List Row :=
  data.filter winterKeep

/-! ### Dispatch selection (interpolate_variable, lines 191-195)
`[(nc, npy) for (nc, npy) in zip(...) if force or not os.path.exists(npy)]`;
the filesystem is passed in as the predicate `existsOut`. -/

def selectWork (existsOut : String → Bool) (force : Bool)
    (pairs : List (String × String)) : List (String × String) :=
  pairs.filter (fun p => force || !(existsOut p.2))

/-! ### Model-name extraction (modelname, line 36)
`'_'.join(path.split('_')[2:6:3])`: Python `split` keeps empty fields and
the slice `[2:6:3]` selects the elements at indices 2 and 5 that exist.
Strings are modelled as lists of characters. -/

def splitUnd : List Char → List (List Char)
  | [] => [[]]
  | c :: rest =>
    match splitUnd rest with
    | [] => if c = '_' then [[], []] else [[c]]
    | h :: t => if c = '_' then [] :: h :: t else (c :: h) :: t

def joinUnd : List (List Char) → List Char
  | [] => []
  | [t] => t
  | t :: ts => t ++ '_' :: joinUnd ts

def modelname (path : List Char) : List Char :=
  joinUnd (List.filterMap (fun i => (splitUnd path).get? i) [2, 5])

/-! ### Date mapping (makedate/makemonth/makeyear, lines 14-30)
`datetime.date(1949, 12, 1) + datetime.timedelta(days)` followed by
`datetime.date(date.year, date.month, 1)`.  Gregorian day-by-day
addition is embedded with the proleptic leap-year rule that
`datetime.date` uses. -/

structure Date where
  year : Nat
  month : Nat
  day : Nat
deriving DecidableEq, Repr

def isLeap (y : Nat) : Bool :=
  y % 4 == 0 && (y % 100 != 0 || y % 400 == 0)

def daysInMonth (y m : Nat) : Nat :=
  if m = 2 then (if isLeap y then 29 else 28)
  else if m = 4 ∨ m = 6 ∨ m = 9 ∨ m = 11 then 30
  else 31

def nextDay (d : Date) : Date :=
  if d.day < daysInMonth d.year d.month then ⟨d.year, d.month, d.day + 1⟩
  else if d.month < 12 then ⟨d.year, d.month + 1, 1⟩
  else ⟨d.year + 1, 1, 1⟩

def addDays (d : Date) : Nat → Date
  | 0 => d
  | n + 1 => nextDay (addDays d n)

def epoch : Date := ⟨1949, 12, 1⟩

def makedate (days : Nat) : Date :=
  let d := addDays epoch days
  ⟨d.year, d.month, 1⟩

def makemonth (days : Nat) : Nat := (makedate days).month

def makeyear (days : Nat) : Nat := (makedate days).year

/-- Count of leap years in `1..y` (proleptic Gregorian). -/
def leapsUpTo (y : Nat) : Nat := y / 4 - y / 100 + y / 400

/-- Days occupied by the months `1..m-1` of year `y`. -/
def daysBeforeMonth (y m : Nat) : Nat :=
  ((List.range (m - 1)).map (fun k => daysInMonth y (k + 1))).sum

/-- Day count since the proleptic epoch 0001-01-01 (that day is number 0);
an independent linearization of calendar dates used to check `addDays`. -/
def rataDie (d : Date) : Nat :=
  365 * (d.year - 1) + leapsUpTo (d.year - 1) + daysBeforeMonth d.year d.month
    + (d.day - 1)

def validDate (d : Date) : Prop :=
  1 ≤ d.year ∧ 1 ≤ d.month ∧ d.month ≤ 12 ∧ 1 ≤ d.day ∧
    d.day ≤ daysInMonth d.year d.month

instance (d : Date) : Decidable (validDate d) := by
  unfold validDate; infer_instance

/-! ### Sorted unique values
`sorted(np.unique(xs))`: the sorted list of the distinct values of `xs`. -/

def insertUniq {α : Type} [LinearOrder α] (a : α) : List α → List α
  | [] => [a]
  | b :: l =>
    if a < b then a :: b :: l
    else if a = b then b :: l
    else b :: insertUniq a l

def sortedUniq {α : Type} [LinearOrder α] (l : List α) : List α :=
  l.foldr insertUniq []

/-! ### Seasonal cube (load_winteravg, lines 265-290)
The unique locations, years and model ids of the filtered long table, and
the nested comprehension building the (location, year, model) mean cube.
`np.mean` of an empty selection is NaN, modelled by `none`. -/

def meanQ (l : List Rat) : Option Rat :=
  if l.isEmpty then none else some (l.sum / l.length)

def uniqYears (data : List Row) : List Int :=
  sortedUniq ((winterFilter data).map Row.year)

def uniqMdls (data : List Row) : List Int :=
  sortedUniq ((winterFilter data).map Row.mdl)

def uniqLocs (data : List Row) : List Int :=
  sortedUniq ((winterFilter data).map Row.loc)

def winterCube (data : List Row) : List (List (List (Option Rat))) :=
  (uniqLocs data).map (fun l =>
    (uniqYears data).map (fun y =>
      (uniqMdls data).map (fun m =>
        meanQ (((((winterFilter data).filter (fun r => r.loc == l)).filter
          (fun r => r.year == y)).filter (fun r => r.mdl == m)).map Row.temp))))

/-! ### Meshgrid and reshape (worker, lines 75-79)
`np.meshgrid(lats, lons)` with default indexing: for `xs` of length A and
`ys` of length B the outputs have shape (B, A), cell (i, j) holding
`(xs[j], ys[i])`; `reshape` is row-major. -/

def meshgrid (xs ys : List Rat) : List (List Rat) × List (List Rat) :=
  (ys.map (fun _ => xs), ys.map (fun y => xs.map (fun _ => y)))

def reshape3 (t nb na : Nat) (flat : List Rat) : List (List (List Rat)) :=
  (List.range t).map (fun i =>
    (List.range nb).map (fun j =>
      (List.range na).map (fun k => flat.getD ((i * nb + j) * na + k) 0)))

/-! ### Bounding-box crop (worker, lines 84-108)
`np.argmax` of a boolean vector is the index of the first `true`, or 0
when all entries are `false`; Python list indexing wraps a negative index
by adding the length.  `np.amin`/`np.amax` over the target coordinates. -/

def firstTrue {α : Type} (p : α → Bool) : List α → Option Nat
  | [] => none
  | a :: t => if p a then some 0 else (firstTrue p t).map (· + 1)

def argmaxB {α : Type} (p : α → Bool) (l : List α) : Nat :=
  (firstTrue p l).getD 0

def pyGet (l : List Rat) (i : Int) : Rat :=
  if i < 0 then l.getD (l.length - (-i).toNat) 0 else l.getD i.toNat 0

def aminQ : List Rat → Rat
  | [] => 0
  | [a] => a
  | a :: b :: t => min a (aminQ (b :: t))

def amaxQ : List Rat → Rat
  | [] => 0
  | [a] => a
  | a :: b :: t => max a (amaxQ (b :: t))

def bbAxis (uniq : List Rat) (lmin lmax : Rat) : Rat × Rat :=
  (pyGet uniq ((argmaxB (fun x => decide (lmin ≤ x)) uniq : Int) - 1),
   uniq.getD (argmaxB (fun x => decide (lmax < x)) uniq) 0)

def cropBox (latlons targets : List (Rat × Rat)) : (Rat × Rat) × (Rat × Rat) :=
  (bbAxis (sortedUniq (latlons.map Prod.fst))
     (aminQ (targets.map Prod.fst)) (amaxQ (targets.map Prod.fst)),
   bbAxis (sortedUniq (latlons.map Prod.snd))
     (aminQ (targets.map Prod.snd)) (amaxQ (targets.map Prod.snd)))

def cropCloud (latlons targets : List (Rat × Rat)) : List (Rat × Rat) :=
  latlons.filter (fun p =>
    decide ((cropBox latlons targets).1.1 ≤ p.1) &&
    decide (p.1 ≤ (cropBox latlons targets).1.2) &&
    decide ((cropBox latlons targets).2.1 ≤ p.2) &&
    decide (p.2 ≤ (cropBox latlons targets).2.2))

/-! ## Calendar lemmas -/

theorem daysInMonth_pos (y m : Nat) : 1 ≤ daysInMonth y m := by
  unfold daysInMonth
  split
  · split <;> norm_num
  · split <;> norm_num

theorem daysBeforeMonth_succ (y m : Nat) (h : 1 ≤ m) :
    daysBeforeMonth y (m + 1) = daysBeforeMonth y m + daysInMonth y m := by
  unfold daysBeforeMonth
  have hm : m + 1 - 1 = (m - 1) + 1 := by omega
  rw [hm, List.range_succ, List.map_append, List.sum_append]
  have hm2 : m - 1 + 1 = m := by omega
  simp [hm2]

set_option maxHeartbeats 2000000 in
theorem leapsUpTo_succ (y : Nat) :
    leapsUpTo (y + 1) = leapsUpTo y + (if isLeap (y + 1) then 1 else 0) := by
  have hiff : isLeap (y + 1) = true ↔
      ((y + 1) % 4 = 0 ∧ ((y + 1) % 100 ≠ 0 ∨ (y + 1) % 400 = 0)) := by
    simp [isLeap]
  by_cases hl : isLeap (y + 1) = true
  · simp only [hl, if_true]
    have h2 := hiff.mp hl
    unfold leapsUpTo
    omega
  · simp only [Bool.not_eq_true] at hl
    have h2 : ¬ ((y + 1) % 4 = 0 ∧ ((y + 1) % 100 ≠ 0 ∨ (y + 1) % 400 = 0)) := by
      intro c
      rw [hl] at hiff
      exact absurd (hiff.mpr c) (by simp)
    simp only [hl, if_false, Bool.false_eq_true]
    clear hiff hl
    unfold leapsUpTo
    omega

set_option maxHeartbeats 1000000 in
theorem daysBeforeMonth_year (y : Nat) :
    daysBeforeMonth y 13 = if isLeap y then 366 else 365 := by
  cases h : isLeap y <;>
    simp [daysBeforeMonth, daysInMonth, h, List.range_succ]

theorem valid_nextDay {d : Date} (h : validDate d) : validDate (nextDay d) := by
  obtain ⟨hy, hm1, hm2, hd1, hd2⟩ := h
  have h2 := daysInMonth_pos d.year (d.month + 1)
  have h3 := daysInMonth_pos (d.year + 1) 1
  unfold nextDay
  split
  · unfold validDate
    dsimp only
    omega
  · split
    · unfold validDate
      dsimp only
      omega
    · unfold validDate
      dsimp only
      omega

theorem rataDie_nextDay {d : Date} (h : validDate d) :
    rataDie (nextDay d) = rataDie d + 1 := by
  obtain ⟨Y, M, D⟩ := d
  obtain ⟨hy, hm1, hm2, hd1, hd2⟩ := h
  simp only at hy hm1 hm2 hd1 hd2
  unfold nextDay
  dsimp only
  split
  · unfold rataDie
    dsimp only
    omega
  · rename_i hlt
    have hde : D = daysInMonth Y M := by omega
    split
    · rename_i hmlt
      have hstep := daysBeforeMonth_succ Y M hm1
      unfold rataDie
      dsimp only
      omega
    · rename_i hm12
      have hme : M = 12 := by omega
      subst hme
      have h13 := daysBeforeMonth_succ Y 12 (by norm_num)
      norm_num at h13
      have hyr := daysBeforeMonth_year Y
      have hls := leapsUpTo_succ (Y - 1)
      have hysub : Y - 1 + 1 = Y := by omega
      rw [hysub] at hls
      have hd12 : daysInMonth Y 12 = 31 := by
        unfold daysInMonth; norm_num
      have hb1 : daysBeforeMonth (Y + 1) 1 = 0 := by
        simp [daysBeforeMonth]
      unfold rataDie
      dsimp only
      simp only [Nat.add_sub_cancel]
      cases hl : isLeap Y <;> simp [hl] at hyr hls <;> omega

theorem valid_addDays {d : Date} (h : validDate d) (n : Nat) :
    validDate (addDays d n) := by
  induction n with
  | zero => exact h
  | succ n ih => exact valid_nextDay ih

theorem rataDie_addDays {d : Date} (h : validDate d) (n : Nat) :
    rataDie (addDays d n) = rataDie d + n := by
  induction n with
  | zero => rfl
  | succ n ih =>
    have := rataDie_nextDay (valid_addDays h n)
    unfold addDays
    omega

/-! ## Claim theorems -/

set_option maxRecDepth 4000 in
/-- C4: the date mapping adds the day offset to the epoch 1949-12-01 —
`addDays` advances the independent day count `rataDie` by exactly the
offset — and normalizes the result to the first day of that month;
offset 0 maps to year 1949, month 12, and offset 31 maps to year 1950,
month 1. -/
theorem claim_C4_date_mapping :
    (∀ n : Nat, rataDie (addDays epoch n) = rataDie epoch + n) ∧
    (∀ n : Nat, makedate n =
      ⟨(addDays epoch n).year, (addDays epoch n).month, 1⟩) ∧
    makeyear 0 = 1949 ∧ makemonth 0 = 12 ∧
    makeyear 31 = 1950 ∧ makemonth 31 = 1 := by
  refine ⟨fun n => rataDie_addDays (by decide) n, fun n => rfl, ?_, ?_, ?_, ?_⟩
  · decide
  · decide
  · decide
  · decide

/-- C5: longitude normalization maps `v` to `v - 360` when `v ≥ 180`,
leaves `v < 180` unchanged, and sends `[0, 360)` into `[-180, 180)`. -/
theorem claim_C5_lon_normalization :
    (∀ v : Rat, 180 ≤ v → normLon v = v - 360) ∧
    (∀ v : Rat, v < 180 → normLon v = v) ∧
    (∀ v : Rat, 0 ≤ v → v < 360 → -180 ≤ normLon v ∧ normLon v < 180) := by
  refine ⟨fun v hv => if_pos hv, fun v hv => if_neg (by linarith), ?_⟩
  intro v h0 h360
  unfold normLon
  split <;> constructor <;> linarith

/-- Witness for C5 at `v = 200` and `v = 10`. -/
theorem claim_C5_lon_normalization_witness :
    normLon 200 = 200 - 360 ∧ normLon 10 = 10 ∧
    (-180 ≤ normLon 200 ∧ normLon 200 < 180) :=
  ⟨claim_C5_lon_normalization.1 200 (by norm_num),
   claim_C5_lon_normalization.2.1 10 (by norm_num),
   claim_C5_lon_normalization.2.2 200 (by norm_num) (by norm_num)⟩

/-- C3: a long-table row survives the winter filter iff its month is one
of 12, 1, 2, 3; any row whose month lies in 4..11 is dropped. -/
theorem claim_C3_winter_filter :
    (∀ (data : List Row) (r : Row),
      r ∈ winterFilter data ↔ r ∈ data ∧
        (r.month = 1 ∨ r.month = 2 ∨ r.month = 3 ∨ r.month = 12)) ∧
    (∀ (data : List Row) (r : Row), 4 ≤ r.month → r.month ≤ 11 →
      r ∉ winterFilter data) := by
  have hmem : ∀ (data : List Row) (r : Row),
      r ∈ winterFilter data ↔ r ∈ data ∧
        (r.month = 1 ∨ r.month = 2 ∨ r.month = 3 ∨ r.month = 12) := by
    intro data r
    simp [winterFilter, winterKeep, List.mem_filter]
    tauto
  refine ⟨hmem, fun data r h4 h11 hmem2 => ?_⟩
  rcases (hmem data r).mp hmem2 with ⟨-, h | h | h | h⟩ <;> omega

/-- Witness for C3: a June row is dropped, a January row is kept. -/
theorem claim_C3_winter_filter_witness :
    (⟨1950, 6, 0, 0, 1⟩ : Row) ∉ winterFilter [⟨1950, 6, 0, 0, 1⟩] ∧
    (⟨1950, 1, 0, 0, 2⟩ : Row) ∈ winterFilter [⟨1950, 1, 0, 0, 2⟩] :=
  ⟨claim_C3_winter_filter.2 _ _ (by norm_num) (by norm_num),
   (claim_C3_winter_filter.1 [⟨1950, 1, 0, 0, 2⟩] ⟨1950, 1, 0, 0, 2⟩).mpr
     ⟨by simp, Or.inl rfl⟩⟩

/-- C7: with the force flag off, the dispatcher selects exactly the pairs
whose output path does not yet exist; if every output exists, it selects
nothing, so a rerun after a fully successful run does no work. -/
theorem claim_C7_idempotent_dispatch :
    (∀ (existsOut : String → Bool) (force : Bool)
      (pairs : List (String × String)) (p : String × String),
      p ∈ selectWork existsOut force pairs ↔
        p ∈ pairs ∧ (force = true ∨ existsOut p.2 = false)) ∧
    (∀ (existsOut : String → Bool) (pairs : List (String × String)),
      (∀ p ∈ pairs, existsOut p.2 = true) →
      selectWork existsOut false pairs = []) := by
  constructor
  · intro existsOut force pairs p
    simp [selectWork, List.mem_filter]
  · intro existsOut pairs h
    apply List.filter_eq_nil_iff.mpr
    intro p hp
    simp [h p hp]

/-- Witness for C7 with a one-file experiment whose output pre-exists. -/
theorem claim_C7_idempotent_dispatch_witness :
    selectWork (fun _ => true) false [("a.nc", "a.npy")] = [] :=
  claim_C7_idempotent_dispatch.2 (fun _ => true) [("a.nc", "a.npy")]
    (fun _ _ => rfl)

/-- C10: the model name is the underscore-join of tokens 2 and 5 of the
underscore-split path; on paths with fewer than six tokens the extraction
is still total and silently yields a shorter label. -/
theorem claim_C10_modelname :
    (∀ (path : List Char) (ts : List (List Char)), splitUnd path = ts →
      6 ≤ ts.length →
      modelname path = ts.getD 2 [] ++ '_' :: ts.getD 5 []) ∧
    (∀ (path : List Char) (ts : List (List Char)), splitUnd path = ts →
      3 ≤ ts.length → ts.length ≤ 5 → modelname path = ts.getD 2 []) ∧
    (∀ (path : List Char) (ts : List (List Char)), splitUnd path = ts →
      ts.length ≤ 2 → modelname path = []) := by
  refine ⟨?_, ?_, ?_⟩ <;> intro path ts hsplit <;> intros <;>
    unfold modelname <;> rw [hsplit] <;>
    rcases ts with _ | ⟨t0, _ | ⟨t1, _ | ⟨t2, _ | ⟨t3, _ | ⟨t4, _ | ⟨t5, rest⟩⟩⟩⟩⟩⟩ <;>
    simp_all [joinUnd]

/-! ## Sorted-unique lemmas -/

theorem mem_insertUniq {α : Type} [LinearOrder α] (a x : α) (l : List α) :
    x ∈ insertUniq a l ↔ x = a ∨ x ∈ l := by
  induction l with
  | nil => simp [insertUniq]
  | cons b t ih =>
    unfold insertUniq
    split
    · simp [List.mem_cons]
    · split
      · rename_i h1 h2
        subst h2
        simp [List.mem_cons]
      · simp only [List.mem_cons, ih]
        tauto

theorem sorted_insertUniq {α : Type} [LinearOrder α] (a : α) (l : List α)
    (h : List.Sorted (· < ·) l) : List.Sorted (· < ·) (insertUniq a l) := by
  induction l with
  | nil => simp [insertUniq]
  | cons b t ih =>
    rw [List.sorted_cons] at h
    obtain ⟨hb, ht⟩ := h
    unfold insertUniq
    split
    · rename_i hab
      rw [List.sorted_cons]
      constructor
      · intro x hx
        rcases List.mem_cons.mp hx with rfl | hx
        · exact hab
        · exact lt_trans hab (hb x hx)
      · rw [List.sorted_cons]
        exact ⟨hb, ht⟩
    · split
      · rw [List.sorted_cons]
        exact ⟨hb, ht⟩
      · rename_i h1 h2
        have hba : b < a := lt_of_le_of_ne (not_lt.mp h1) (fun e => h2 e.symm)
        rw [List.sorted_cons]
        refine ⟨?_, ih ht⟩
        intro x hx
        rcases (mem_insertUniq a x t).mp hx with rfl | hx
        · exact hba
        · exact hb x hx

theorem sorted_sortedUniq {α : Type} [LinearOrder α] (l : List α) :
    List.Sorted (· < ·) (sortedUniq l) := by
  induction l with
  | nil => simp [sortedUniq]
  | cons a t ih => exact sorted_insertUniq a (sortedUniq t) ih

theorem mem_sortedUniq {α : Type} [LinearOrder α] (l : List α) (x : α) :
    x ∈ sortedUniq l ↔ x ∈ l := by
  induction l with
  | nil => simp [sortedUniq]
  | cons a t ih =>
    show x ∈ insertUniq a (sortedUniq t) ↔ _
    rw [mem_insertUniq, ih]
    simp [List.mem_cons]

/-- Witness for C10 on a six-token path and on a malformed four-token
path. -/
theorem claim_C10_modelname_witness :
    modelname ("pr_day_modelA_rcp45_r1_v20".toList)
      = ("modelA_v20".toList) ∧
    modelname ("pr_day_modelA_rcp45".toList) = ("modelA".toList) :=
  ⟨claim_C10_modelname.1 _
      [("pr".toList), ("day".toList), ("modelA".toList),
        ("rcp45".toList), ("r1".toList), ("v20".toList)]
      (by decide) (by decide),
   claim_C10_modelname.2.1 _
      [("pr".toList), ("day".toList), ("modelA".toList), ("rcp45".toList)]
      (by decide) (by decide) (by decide)⟩

/-- C8: the seasonal cube has dimensions
(#unique locations, #unique years, #unique models) of the winter-filtered
long table, in [location, year, model] axis order, and the year list is
the sorted unique years of the filtered table. -/
theorem claim_C8_cube_dimensions :
    ∀ data : List Row,
      (winterCube data).length = (uniqLocs data).length ∧
      (∀ plane ∈ winterCube data, plane.length = (uniqYears data).length ∧
        ∀ row ∈ plane, row.length = (uniqMdls data).length) ∧
      (List.Sorted (· < ·) (uniqLocs data) ∧ (uniqLocs data).Nodup ∧
        ∀ v, v ∈ uniqLocs data ↔ v ∈ (winterFilter data).map Row.loc) ∧
      (List.Sorted (· < ·) (uniqYears data) ∧ (uniqYears data).Nodup ∧
        ∀ v, v ∈ uniqYears data ↔ v ∈ (winterFilter data).map Row.year) ∧
      (List.Sorted (· < ·) (uniqMdls data) ∧ (uniqMdls data).Nodup ∧
        ∀ v, v ∈ uniqMdls data ↔ v ∈ (winterFilter data).map Row.mdl) := by
  intro data
  refine ⟨by simp [winterCube], ?_,
    ⟨sorted_sortedUniq _, (sorted_sortedUniq _).nodup,
      fun v => mem_sortedUniq _ v⟩,
    ⟨sorted_sortedUniq _, (sorted_sortedUniq _).nodup,
      fun v => mem_sortedUniq _ v⟩,
    ⟨sorted_sortedUniq _, (sorted_sortedUniq _).nodup,
      fun v => mem_sortedUniq _ v⟩⟩
  intro plane hp
  rcases List.mem_map.mp hp with ⟨l, hl, rfl⟩
  refine ⟨by simp, ?_⟩
  intro row hr
  rcases List.mem_map.mp hr with ⟨y, hy, rfl⟩
  simp

/-- Witness for C8 on a one-row table. -/
theorem claim_C8_cube_dimensions_witness :
    ([(some 2 : Option Rat)] : List (Option Rat)).length
      = (uniqMdls [⟨1950, 1, 0, 0, 2⟩]).length :=
  ((claim_C8_cube_dimensions [⟨1950, 1, 0, 0, 2⟩]).2.1
      [[(some 2 : Option Rat)]] (by
        norm_num [winterCube, uniqLocs, uniqYears, uniqMdls, winterFilter,
          winterKeep, sortedUniq, insertUniq, meanQ])).2
    [(some 2 : Option Rat)] (by norm_num)

/-- C1: the cube cell at index (li, yi, mi) is the arithmetic mean of the
temperatures of exactly the filtered rows whose (location, year, model)
equals the (li, yi, mi)-th unique values, `none` (NaN) when no row
matches; on the two-row (0, 1950, 0) example with values 2 and 4, plus a
1951 row, the cell at location 0, year-index of 1950, model 0 is 3. -/
theorem claim_C1_cube_cell_mean :
    (∀ (data : List Row) (li yi mi : Nat) (L Y M : Int),
      (uniqLocs data)[li]? = some L →
      (uniqYears data)[yi]? = some Y →
      (uniqMdls data)[mi]? = some M →
      ((winterCube data)[li]?.bind fun plane =>
          plane[yi]?.bind fun row => row[mi]?)
        = some (meanQ (((winterFilter data).filter
            (fun r => r.loc == L && r.year == Y && r.mdl == M)).map
              Row.temp))) ∧
    winterCube [⟨1950, 1, 0, 0, 2⟩, ⟨1950, 1, 0, 0, 4⟩, ⟨1951, 1, 0, 0, 6⟩]
      = [[[some 3], [some 6]]] := by
  constructor
  · intro data li yi mi L Y M hL hY hM
    unfold winterCube
    rw [List.getElem?_map, hL]
    simp only [Option.map_some', Option.some_bind]
    rw [List.getElem?_map, hY]
    simp only [Option.map_some', Option.some_bind]
    rw [List.getElem?_map, hM]
    simp only [Option.map_some']
    have hfilters :
        ((((winterFilter data).filter (fun r => r.loc == L)).filter
            (fun r => r.year == Y)).filter (fun r => r.mdl == M))
          = (winterFilter data).filter
              (fun r => r.loc == L && r.year == Y && r.mdl == M) := by
      rw [List.filter_filter, List.filter_filter]
      apply List.filter_congr
      intro x hx
      cases x.loc == L <;> cases x.year == Y <;> cases x.mdl == M <;> rfl
    rw [hfilters]
  · norm_num [winterCube, uniqLocs, uniqYears, uniqMdls, winterFilter, winterKeep,
      sortedUniq, insertUniq, meanQ]

/-- Witness for C1 at the concrete two-row example. -/
theorem claim_C1_cube_cell_mean_witness :
    ((winterCube [⟨1950, 1, 0, 0, 2⟩, ⟨1950, 1, 0, 0, 4⟩,
        ⟨1951, 1, 0, 0, 6⟩])[0]?.bind fun plane =>
          plane[0]?.bind fun row => row[0]?)
      = some (meanQ (((winterFilter [⟨1950, 1, 0, 0, 2⟩, ⟨1950, 1, 0, 0, 4⟩,
          ⟨1951, 1, 0, 0, 6⟩]).filter
            (fun r => r.loc == 0 && r.year == 1950 && r.mdl == 0)).map
              Row.temp)) :=
  claim_C1_cube_cell_mean.1 _ 0 0 0 0 1950 0
    (by norm_num [uniqLocs, winterFilter, winterKeep, sortedUniq, insertUniq])
    (by norm_num [uniqYears, winterFilter, winterKeep, sortedUniq, insertUniq])
    (by norm_num [uniqMdls, winterFilter, winterKeep, sortedUniq, insertUniq])

/-! ## Meshgrid lemmas -/

theorem getD_map_of_lt {α β : Type} (f : α → β) (l : List α) (i : Nat)
    (d : β) (d2 : α) (h : i < l.length) :
    (l.map f).getD i d = f (l.getD i d2) := by
  rw [List.getD_eq_getElem?_getD, List.getD_eq_getElem?_getD,
    List.getElem?_map, List.getElem?_eq_getElem h]
  simp

/-- C6 counterexample: for `lats = [1, 2, 3]`, `lons = [4, 5]`, the
meshgrid pair has shape (2, 3) and cell (0, 1) is `(2, 4)`, not
`(lats[0], lons[1]) = (1, 5)` as the claim's cell formula states. -/
theorem claim_C6_counterexample :
    (meshgrid [1, 2, 3] [4, 5]).1 = [[1, 2, 3], [1, 2, 3]] ∧
    (meshgrid [1, 2, 3] [4, 5]).2 = [[4, 4, 4], [5, 5, 5]] ∧
    ¬ (((meshgrid [1, 2, 3] [4, 5]).1.getD 0 []).getD 1 0
          = ([1, 2, 3] : List Rat).getD 0 0 ∧
        ((meshgrid [1, 2, 3] [4, 5]).2.getD 0 []).getD 1 0
          = ([4, 5] : List Rat).getD 1 0) := by decide

/-- C6 (amended): for 1D latitude of length A and longitude of length B,
the meshgrid expansion gives both arrays shape (B, A) with cell (i, j)
equal to `(lats[j], lons[i])`, and the variable reshape target
`[time, B, A]` matches that mesh shape. -/
theorem claim_C6_rectilinear_expansion :
    ∀ (lats lons : List Rat) (t : Nat) (flat : List Rat),
      (meshgrid lats lons).1.length = lons.length ∧
      (meshgrid lats lons).2.length = lons.length ∧
      (∀ row ∈ (meshgrid lats lons).1, row.length = lats.length) ∧
      (∀ row ∈ (meshgrid lats lons).2, row.length = lats.length) ∧
      (∀ i j, i < lons.length → j < lats.length →
        ((meshgrid lats lons).1.getD i []).getD j 0 = lats.getD j 0 ∧
        ((meshgrid lats lons).2.getD i []).getD j 0 = lons.getD i 0) ∧
      (reshape3 t lons.length lats.length flat).length = t ∧
      (∀ plane ∈ reshape3 t lons.length lats.length flat,
        plane.length = lons.length ∧
          ∀ row ∈ plane, row.length = lats.length) := by
  intro lats lons t flat
  refine ⟨by simp [meshgrid], by simp [meshgrid], ?_, ?_, ?_, by simp [reshape3], ?_⟩
  · intro row hr
    rcases List.mem_map.mp hr with ⟨y, hy, rfl⟩
    rfl
  · intro row hr
    rcases List.mem_map.mp hr with ⟨y, hy, rfl⟩
    simp
  · intro i j hi hj
    constructor
    · rw [show (meshgrid lats lons).1 = lons.map (fun _ => lats) from rfl,
        getD_map_of_lt (fun _ => lats) lons i [] 0 hi]
    · rw [show (meshgrid lats lons).2
          = lons.map (fun y => lats.map (fun _ => y)) from rfl,
        getD_map_of_lt (fun y => lats.map (fun _ => y)) lons i [] 0 hi,
        getD_map_of_lt (fun _ => lons.getD i 0) lats j 0 0 hj]
  · intro plane hp
    rcases List.mem_map.mp hp with ⟨i, hi, rfl⟩
    refine ⟨by simp, ?_⟩
    intro row hr
    rcases List.mem_map.mp hr with ⟨j, hj, rfl⟩
    simp

/-- Witness for the amended C6 at `lats = [1, 2, 3]`, `lons = [4, 5]`,
cell (0, 1). -/
theorem claim_C6_rectilinear_expansion_witness :
    ((meshgrid [1, 2, 3] [4, 5]).1.getD 0 []).getD 1 0
        = ([1, 2, 3] : List Rat).getD 1 0 ∧
      ((meshgrid [1, 2, 3] [4, 5]).2.getD 0 []).getD 1 0
        = ([4, 5] : List Rat).getD 0 0 :=
  (claim_C6_rectilinear_expansion [1, 2, 3] [4, 5] 0 []).2.2.2.2.1 0 1
    (by norm_num) (by norm_num)

/-! ## Bounding-box lemmas -/

theorem firstTrue_some {α : Type} (p : α → Bool) (u : List α) (k : Nat) (d : α)
    (h : firstTrue p u = some k) :
    k < u.length ∧ p (u.getD k d) = true ∧
      ∀ j, j < k → p (u.getD j d) = false := by
  induction u generalizing k with
  | nil => simp [firstTrue] at h
  | cons a t ih =>
    unfold firstTrue at h
    by_cases hpa : p a = true
    · rw [if_pos hpa] at h
      have hk : k = 0 := by
        simpa using h.symm
      subst hk
      exact ⟨by simp, by simpa using hpa,
        fun j hj => absurd hj (Nat.not_lt_zero j)⟩
    · rw [if_neg hpa] at h
      rcases Option.map_eq_some'.mp h with ⟨k2, hk2, hke⟩
      subst hke
      obtain ⟨h1, h2, h3⟩ := ih k2 hk2
      rw [Bool.not_eq_true] at hpa
      refine ⟨by simp; omega, by simpa [List.getD_cons_succ] using h2, ?_⟩
      intro j hj
      cases j with
      | zero => simpa [List.getD_cons_zero] using hpa
      | succ j2 =>
        rw [List.getD_cons_succ]
        exact h3 j2 (by omega)

theorem firstTrue_none_iff {α : Type} (p : α → Bool) (u : List α) :
    firstTrue p u = none ↔ ∀ x ∈ u, p x = false := by
  induction u with
  | nil => simp [firstTrue]
  | cons a t ih =>
    unfold firstTrue
    by_cases hpa : p a = true
    · simp [hpa]
    · rw [Bool.not_eq_true] at hpa
      simp [hpa, ih]

theorem aminQ_le {l : List Rat} {x : Rat} (h : x ∈ l) : aminQ l ≤ x := by
  induction l with
  | nil => simp at h
  | cons a t ih =>
    cases t with
    | nil =>
      rw [List.mem_singleton] at h
      subst h
      exact le_refl _
    | cons b t2 =>
      rw [show aminQ (a :: b :: t2) = min a (aminQ (b :: t2)) from rfl]
      rcases List.mem_cons.mp h with rfl | h2
      · exact min_le_left _ _
      · exact le_trans (min_le_right _ _) (ih h2)

theorem aminQ_mem {l : List Rat} (h : l ≠ []) : aminQ l ∈ l := by
  induction l with
  | nil => exact absurd rfl h
  | cons a t ih =>
    cases t with
    | nil => simp [aminQ]
    | cons b t2 =>
      rw [show aminQ (a :: b :: t2) = min a (aminQ (b :: t2)) from rfl]
      rcases le_total a (aminQ (b :: t2)) with hle | hle
      · rw [min_eq_left hle]
        exact List.mem_cons_self _ _
      · rw [min_eq_right hle]
        exact List.mem_cons_of_mem _ (ih (by simp))

theorem le_amaxQ {l : List Rat} {x : Rat} (h : x ∈ l) : x ≤ amaxQ l := by
  induction l with
  | nil => simp at h
  | cons a t ih =>
    cases t with
    | nil =>
      rw [List.mem_singleton] at h
      subst h
      exact le_refl _
    | cons b t2 =>
      rw [show amaxQ (a :: b :: t2) = max a (amaxQ (b :: t2)) from rfl]
      rcases List.mem_cons.mp h with rfl | h2
      · exact le_max_left _ _
      · exact le_trans (ih h2) (le_max_right _ _)

theorem amaxQ_mem {l : List Rat} (h : l ≠ []) : amaxQ l ∈ l := by
  induction l with
  | nil => exact absurd rfl h
  | cons a t ih =>
    cases t with
    | nil => simp [amaxQ]
    | cons b t2 =>
      rw [show amaxQ (a :: b :: t2) = max a (amaxQ (b :: t2)) from rfl]
      rcases le_total a (amaxQ (b :: t2)) with hle | hle
      · rw [max_eq_right hle]
        exact List.mem_cons_of_mem _ (ih (by simp))
      · rw [max_eq_left hle]
        exact List.mem_cons_self _ _

theorem sorted_getD_mono {u : List Rat} (hs : List.Sorted (· < ·) u)
    {i j : Nat} (hij : i ≤ j) (hj : j < u.length) (d : Rat) :
    u.getD i d ≤ u.getD j d := by
  have hi : i < u.length := Nat.lt_of_le_of_lt hij hj
  rw [List.getD_eq_getElem u d hi, List.getD_eq_getElem u d hj]
  rcases Nat.eq_or_lt_of_le hij with rfl | hlt
  · exact le_refl _
  · have := hs.get_strictMono
      (show (⟨i, hi⟩ : Fin u.length) < ⟨j, hj⟩ from hlt)
    simpa [List.get_eq_getElem] using le_of_lt this

theorem bbAxis_lower {u : List Rat} (hs : List.Sorted (· < ·) u) {lmin : Rat}
    (hex : ∃ x ∈ u, x < lmin) (hup : ∃ x ∈ u, lmin ≤ x) :
    pyGet u ((argmaxB (fun x => decide (lmin ≤ x)) u : Int) - 1) ∈ u ∧
    pyGet u ((argmaxB (fun x => decide (lmin ≤ x)) u : Int) - 1) < lmin ∧
    ∀ x ∈ u, x < lmin →
      x ≤ pyGet u ((argmaxB (fun x => decide (lmin ≤ x)) u : Int) - 1) := by
  have hsome : ∃ k, firstTrue (fun x => decide (lmin ≤ x)) u = some k := by
    rcases hup with ⟨x, hx, hxle⟩
    cases hft : firstTrue (fun x => decide (lmin ≤ x)) u with
    | none =>
      have hfalse := (firstTrue_none_iff _ u).mp hft x hx
      rw [decide_eq_false_iff_not] at hfalse
      exact absurd hxle hfalse
    | some k => exact ⟨k, rfl⟩
  rcases hsome with ⟨k, hk⟩
  obtain ⟨hklen, hpk, hjlt⟩ := firstTrue_some _ u k 0 hk
  rcases hex with ⟨x0, hx0, hx0lt⟩
  rcases List.mem_iff_getElem.mp hx0 with ⟨j0, hj0l, hj0e⟩
  have hkpos : 1 ≤ k := by
    by_contra hc
    have hk0 : k = 0 := by omega
    subst hk0
    have hmono := sorted_getD_mono hs (Nat.zero_le j0) hj0l 0
    rw [List.getD_eq_getElem u 0 hj0l, hj0e] at hmono
    rw [decide_eq_true_eq] at hpk
    have : lmin ≤ x0 := le_trans hpk hmono
    exact absurd hx0lt (not_lt.mpr this)
  have hargmax : argmaxB (fun x => decide (lmin ≤ x)) u = k := by
    simp [argmaxB, hk]
  have hpy : pyGet u ((argmaxB (fun x => decide (lmin ≤ x)) u : Int) - 1)
      = u.getD (k - 1) 0 := by
    rw [hargmax]
    unfold pyGet
    rw [if_neg (by omega : ¬ ((k : Int) - 1 < 0))]
    congr 1
    omega
  rw [hpy]
  have hk1len : k - 1 < u.length := by omega
  have hbfalse := hjlt (k - 1) (by omega)
  rw [decide_eq_false_iff_not] at hbfalse
  refine ⟨?_, lt_of_not_le hbfalse, ?_⟩
  · rw [List.getD_eq_getElem u 0 hk1len]
    exact List.getElem_mem hk1len
  · intro x hx hxlt
    rcases List.mem_iff_getElem.mp hx with ⟨j, hjl, hje⟩
    rcases Nat.lt_or_ge j k with hjk | hjk
    · have := sorted_getD_mono hs (by omega : j ≤ k - 1) hk1len 0
      rw [List.getD_eq_getElem u 0 hjl, hje] at this
      exact this
    · exfalso
      have := sorted_getD_mono hs hjk hjl 0
      rw [List.getD_eq_getElem u 0 hjl, hje] at this
      rw [decide_eq_true_eq] at hpk
      exact absurd hxlt (not_lt.mpr (le_trans hpk this))

theorem bbAxis_upper {u : List Rat} (hs : List.Sorted (· < ·) u) {lmax : Rat}
    (hup : ∃ x ∈ u, lmax < x) :
    u.getD (argmaxB (fun x => decide (lmax < x)) u) 0 ∈ u ∧
    lmax < u.getD (argmaxB (fun x => decide (lmax < x)) u) 0 ∧
    ∀ x ∈ u, lmax < x →
      u.getD (argmaxB (fun x => decide (lmax < x)) u) 0 ≤ x := by
  have hsome : ∃ k, firstTrue (fun x => decide (lmax < x)) u = some k := by
    rcases hup with ⟨x, hx, hxlt⟩
    cases hft : firstTrue (fun x => decide (lmax < x)) u with
    | none =>
      have hfalse := (firstTrue_none_iff _ u).mp hft x hx
      rw [decide_eq_false_iff_not] at hfalse
      exact absurd hxlt hfalse
    | some k => exact ⟨k, rfl⟩
  rcases hsome with ⟨k, hk⟩
  obtain ⟨hklen, hpk, hjlt⟩ := firstTrue_some _ u k 0 hk
  have hargmax : argmaxB (fun x => decide (lmax < x)) u = k := by
    simp [argmaxB, hk]
  rw [hargmax]
  rw [decide_eq_true_eq] at hpk
  refine ⟨?_, hpk, ?_⟩
  · rw [List.getD_eq_getElem u 0 hklen]
    exact List.getElem_mem hklen
  · intro x hx hxlt
    rcases List.mem_iff_getElem.mp hx with ⟨j, hjl, hje⟩
    rcases Nat.lt_or_ge j k with hjk | hjk
    · exfalso
      have hbfalse := hjlt j hjk
      rw [decide_eq_false_iff_not] at hbfalse
      rw [List.getD_eq_getElem u 0 hjl, hje] at hbfalse
      exact hbfalse hxlt
    · have := sorted_getD_mono hs hjk hjl 0
      rw [List.getD_eq_getElem u 0 hjl, hje] at this
      exact this

theorem bbAxis_wrap_low {u : List Rat} {lmin : Rat} (hne : u ≠ [])
    (hall : ∀ x ∈ u, lmin ≤ x) :
    pyGet u ((argmaxB (fun x => decide (lmin ≤ x)) u : Int) - 1)
      = u.getD (u.length - 1) 0 := by
  cases u with
  | nil => exact absurd rfl hne
  | cons a t =>
    have hft : firstTrue (fun x => decide (lmin ≤ x)) (a :: t) = some 0 := by
      unfold firstTrue
      rw [if_pos (decide_eq_true_eq.mpr (hall a (List.mem_cons_self a t)))]
    have hargmax : argmaxB (fun x => decide (lmin ≤ x)) (a :: t) = 0 := by
      simp [argmaxB, hft]
    rw [hargmax]
    unfold pyGet
    rw [if_pos (by omega : ((0 : Nat) : Int) - 1 < 0)]
    congr 1

theorem bbAxis_wrap_high {u : List Rat} {lmax : Rat}
    (hall : ∀ x ∈ u, x ≤ lmax) :
    u.getD (argmaxB (fun x => decide (lmax < x)) u) 0 = u.getD 0 0 := by
  have hft : firstTrue (fun x => decide (lmax < x)) u = none := by
    rw [firstTrue_none_iff]
    intro x hx
    rw [decide_eq_false_iff_not]
    exact not_lt.mpr (hall x hx)
  simp [argmaxB, hft]

/-- C9: when the minimum target coordinate on an axis is at most the
smallest grid value, argmax(uniq ≥ lmin) − 1 evaluates to −1, Python
negative indexing wraps, and the lower bound becomes the grid maximum;
symmetrically, when the maximum target coordinate is at least the largest
grid value the upper bound becomes the grid minimum; no out-of-bounds
error occurs, and the resulting inverted box yields an empty crop, as on
the concrete grid {(0,0), (10,0)} with targets {(-5,0), (20,0)}. -/
theorem claim_C9_bbox_wraparound :
    (∀ (coords : List Rat) (lmin lmax : Rat), coords ≠ [] →
      lmin ≤ aminQ coords →
      (bbAxis (sortedUniq coords) lmin lmax).1 = amaxQ coords) ∧
    (∀ (coords : List Rat) (lmin lmax : Rat), coords ≠ [] →
      amaxQ coords ≤ lmax →
      (bbAxis (sortedUniq coords) lmin lmax).2 = aminQ coords) ∧
    cropBox [(0, 0), (10, 0)] [(-5, 0), (20, 0)] = ((10, 0), (0, 0)) ∧
    cropCloud [(0, 0), (10, 0)] [(-5, 0), (20, 0)] = [] := by
  refine ⟨?_, ?_, by decide, by decide⟩
  · intro coords lmin lmax hne hmin
    have hs := sorted_sortedUniq coords
    have hmm : aminQ coords ∈ sortedUniq coords :=
      (mem_sortedUniq coords (aminQ coords)).mpr (aminQ_mem hne)
    have hne2 : sortedUniq coords ≠ [] := List.ne_nil_of_mem hmm
    have hall : ∀ x ∈ sortedUniq coords, lmin ≤ x := fun x hx =>
      le_trans hmin (aminQ_le ((mem_sortedUniq coords x).mp hx))
    have hwrap := bbAxis_wrap_low hne2 hall
    show pyGet (sortedUniq coords)
      ((argmaxB (fun x => decide (lmin ≤ x)) (sortedUniq coords) : Int) - 1)
        = amaxQ coords
    rw [hwrap]
    have hlen : 0 < (sortedUniq coords).length :=
      List.length_pos.mpr hne2
    have hl1 : (sortedUniq coords).length - 1 < (sortedUniq coords).length :=
      by omega
    have hlastmem : (sortedUniq coords).getD
        ((sortedUniq coords).length - 1) 0 ∈ sortedUniq coords := by
      rw [List.getD_eq_getElem (sortedUniq coords) 0 hl1]
      exact List.getElem_mem hl1
    apply le_antisymm
    · exact le_amaxQ ((mem_sortedUniq coords _).mp hlastmem)
    · have hmax : amaxQ coords ∈ sortedUniq coords :=
        (mem_sortedUniq coords (amaxQ coords)).mpr (amaxQ_mem hne)
      rcases List.mem_iff_getElem.mp hmax with ⟨j, hj, hje⟩
      have := sorted_getD_mono hs (by omega : j ≤ (sortedUniq coords).length - 1)
        hl1 0
      rw [List.getD_eq_getElem (sortedUniq coords) 0 hj, hje] at this
      exact this
  · intro coords lmin lmax hne hmax
    have hs := sorted_sortedUniq coords
    have hmm : aminQ coords ∈ sortedUniq coords :=
      (mem_sortedUniq coords (aminQ coords)).mpr (aminQ_mem hne)
    have hne2 : sortedUniq coords ≠ [] := List.ne_nil_of_mem hmm
    have hall : ∀ x ∈ sortedUniq coords, x ≤ lmax := fun x hx =>
      le_trans (le_amaxQ ((mem_sortedUniq coords x).mp hx)) hmax
    have hwrap := bbAxis_wrap_high hall
    show (sortedUniq coords).getD
        (argmaxB (fun x => decide (lmax < x)) (sortedUniq coords)) 0
      = aminQ coords
    rw [hwrap]
    have hlen : 0 < (sortedUniq coords).length :=
      List.length_pos.mpr hne2
    have hheadmem : (sortedUniq coords).getD 0 0 ∈ sortedUniq coords := by
      rw [List.getD_eq_getElem (sortedUniq coords) 0 hlen]
      exact List.getElem_mem hlen
    apply le_antisymm
    · rcases List.mem_iff_getElem.mp hmm with ⟨j, hj, hje⟩
      have := sorted_getD_mono hs (Nat.zero_le j) hj 0
      rw [List.getD_eq_getElem (sortedUniq coords) 0 hj, hje] at this
      exact this
    · exact aminQ_le ((mem_sortedUniq coords _).mp hheadmem)

/-- Witness for C9 on the axis values {0, 10} with out-of-range targets. -/
theorem claim_C9_bbox_wraparound_witness :
    (bbAxis (sortedUniq [0, 10]) (-5) 20).1 = amaxQ [0, 10] ∧
    (bbAxis (sortedUniq [0, 10]) (-5) 20).2 = aminQ [0, 10] :=
  ⟨claim_C9_bbox_wraparound.1 [0, 10] (-5) 20 (by decide) (by decide),
   claim_C9_bbox_wraparound.2.1 [0, 10] (-5) 20 (by decide) (by decide)⟩

theorem bbAxis_neighbors {cs : List Rat} {tmin tmax : Rat}
    (hne : cs ≠ []) (htne : tmin ≤ tmax)
    (h1 : aminQ cs < tmin) (h2 : tmax < amaxQ cs) :
    ((bbAxis (sortedUniq cs) tmin tmax).1 ∈ cs ∧
      (bbAxis (sortedUniq cs) tmin tmax).1 < tmin ∧
      (∀ x ∈ cs, x < tmin → x ≤ (bbAxis (sortedUniq cs) tmin tmax).1)) ∧
    ((bbAxis (sortedUniq cs) tmin tmax).2 ∈ cs ∧
      tmax < (bbAxis (sortedUniq cs) tmin tmax).2 ∧
      (∀ x ∈ cs, tmax < x → (bbAxis (sortedUniq cs) tmin tmax).2 ≤ x)) := by
  have hs := sorted_sortedUniq cs
  have hexlow : ∃ x ∈ sortedUniq cs, x < tmin :=
    ⟨aminQ cs, (mem_sortedUniq cs (aminQ cs)).mpr (aminQ_mem hne), h1⟩
  have hexup : ∃ x ∈ sortedUniq cs, tmin ≤ x :=
    ⟨amaxQ cs, (mem_sortedUniq cs (amaxQ cs)).mpr (amaxQ_mem hne),
      le_of_lt (lt_of_le_of_lt htne h2)⟩
  have hexhi : ∃ x ∈ sortedUniq cs, tmax < x :=
    ⟨amaxQ cs, (mem_sortedUniq cs (amaxQ cs)).mpr (amaxQ_mem hne), h2⟩
  obtain ⟨hlmem, hllt, hlmax⟩ := bbAxis_lower hs hexlow hexup
  obtain ⟨humem, hult, humin⟩ := bbAxis_upper hs hexhi
  refine ⟨⟨(mem_sortedUniq cs _).mp hlmem, hllt, ?_⟩,
    ⟨(mem_sortedUniq cs _).mp humem, hult, ?_⟩⟩
  · intro x hx hxlt
    exact hlmax x ((mem_sortedUniq cs x).mpr hx) hxlt
  · intro x hx hxgt
    exact humin x ((mem_sortedUniq cs x).mpr hx) hxgt

/-- C2 counterexample: the grid points {(4,-50), (0,0), (10,100)} and the
single target (5, 50) lie strictly within the grid coordinate range on
both axes, yet the crop keeps only (10, 100): the cropped latitude range
[10, 10] does not strictly contain the target latitude range. -/
theorem claim_C2_counterexample :
    (aminQ (([(4, -50), (0, 0), (10, 100)] : List (Rat × Rat)).map Prod.fst)
        < aminQ (([(5, 50)] : List (Rat × Rat)).map Prod.fst) ∧
      amaxQ (([(5, 50)] : List (Rat × Rat)).map Prod.fst)
        < amaxQ (([(4, -50), (0, 0), (10, 100)] : List (Rat × Rat)).map
            Prod.fst) ∧
      aminQ (([(4, -50), (0, 0), (10, 100)] : List (Rat × Rat)).map Prod.snd)
        < aminQ (([(5, 50)] : List (Rat × Rat)).map Prod.snd) ∧
      amaxQ (([(5, 50)] : List (Rat × Rat)).map Prod.snd)
        < amaxQ (([(4, -50), (0, 0), (10, 100)] : List (Rat × Rat)).map
            Prod.snd)) ∧
    cropCloud [(4, -50), (0, 0), (10, 100)] [(5, 50)] = [(10, 100)] ∧
    ¬ (aminQ ((cropCloud [(4, -50), (0, 0), (10, 100)] [(5, 50)]).map
          Prod.fst)
        < aminQ (([(5, 50)] : List (Rat × Rat)).map Prod.fst)) := by decide

/-- C2 (amended): for normalized grids with mesh (product) structure —
every combination of a grid latitude value and a grid longitude value is
a grid point, as the meshgrid expansion of a rectilinear grid produces —
and targets strictly inside the grid range on both axes, the box bounds
are the largest grid value strictly below the target minimum and the
smallest grid value strictly above the target maximum per axis, exactly
the points inside the box (inclusive) are kept, and the cropped cloud's
coordinate range strictly contains the target range on both axes.  (For
general curvilinear grids the box-formation and point-selection parts
still hold, but the final containment can fail, see the
counterexample.) -/
theorem claim_C2_bbox_inclusion :
    ∀ (latlons targets : List (Rat × Rat)),
      latlons ≠ [] → targets ≠ [] →
      (∀ a b : Rat, (a, b) ∈ latlons ↔
        (a ∈ latlons.map Prod.fst ∧ b ∈ latlons.map Prod.snd)) →
      aminQ (latlons.map Prod.fst) < aminQ (targets.map Prod.fst) →
      amaxQ (targets.map Prod.fst) < amaxQ (latlons.map Prod.fst) →
      aminQ (latlons.map Prod.snd) < aminQ (targets.map Prod.snd) →
      amaxQ (targets.map Prod.snd) < amaxQ (latlons.map Prod.snd) →
      ((cropBox latlons targets).1.1 ∈ latlons.map Prod.fst ∧
        (cropBox latlons targets).1.1 < aminQ (targets.map Prod.fst) ∧
        (∀ x ∈ latlons.map Prod.fst, x < aminQ (targets.map Prod.fst) →
          x ≤ (cropBox latlons targets).1.1)) ∧
      ((cropBox latlons targets).1.2 ∈ latlons.map Prod.fst ∧
        amaxQ (targets.map Prod.fst) < (cropBox latlons targets).1.2 ∧
        (∀ x ∈ latlons.map Prod.fst, amaxQ (targets.map Prod.fst) < x →
          (cropBox latlons targets).1.2 ≤ x)) ∧
      ((cropBox latlons targets).2.1 ∈ latlons.map Prod.snd ∧
        (cropBox latlons targets).2.1 < aminQ (targets.map Prod.snd) ∧
        (∀ x ∈ latlons.map Prod.snd, x < aminQ (targets.map Prod.snd) →
          x ≤ (cropBox latlons targets).2.1)) ∧
      ((cropBox latlons targets).2.2 ∈ latlons.map Prod.snd ∧
        amaxQ (targets.map Prod.snd) < (cropBox latlons targets).2.2 ∧
        (∀ x ∈ latlons.map Prod.snd, amaxQ (targets.map Prod.snd) < x →
          (cropBox latlons targets).2.2 ≤ x)) ∧
      (∀ p : Rat × Rat, p ∈ cropCloud latlons targets ↔
        (p ∈ latlons ∧ (cropBox latlons targets).1.1 ≤ p.1 ∧
          p.1 ≤ (cropBox latlons targets).1.2 ∧
          (cropBox latlons targets).2.1 ≤ p.2 ∧
          p.2 ≤ (cropBox latlons targets).2.2)) ∧
      (cropCloud latlons targets ≠ [] ∧
        aminQ ((cropCloud latlons targets).map Prod.fst)
          < aminQ (targets.map Prod.fst) ∧
        amaxQ (targets.map Prod.fst)
          < amaxQ ((cropCloud latlons targets).map Prod.fst) ∧
        aminQ ((cropCloud latlons targets).map Prod.snd)
          < aminQ (targets.map Prod.snd) ∧
        amaxQ (targets.map Prod.snd)
          < amaxQ ((cropCloud latlons targets).map Prod.snd)) := by
  intro latlons targets hn1 hn2 hprod h1 h2 h3 h4
  have hfne : latlons.map Prod.fst ≠ [] := by
    simpa using hn1
  have hlne : latlons.map Prod.snd ≠ [] := by
    simpa using hn1
  have htfne : targets.map Prod.fst ≠ [] := by
    simpa using hn2
  have htlne : targets.map Prod.snd ≠ [] := by
    simpa using hn2
  have htf : aminQ (targets.map Prod.fst) ≤ amaxQ (targets.map Prod.fst) :=
    aminQ_le (amaxQ_mem htfne)
  have htl : aminQ (targets.map Prod.snd) ≤ amaxQ (targets.map Prod.snd) :=
    aminQ_le (amaxQ_mem htlne)
  obtain ⟨⟨hA1, hA2, hA3⟩, hB1, hB2, hB3⟩ := bbAxis_neighbors hfne htf h1 h2
  obtain ⟨⟨hC1, hC2, hC3⟩, hD1, hD2, hD3⟩ := bbAxis_neighbors hlne htl h3 h4
  have hmemiff : ∀ p : Rat × Rat, p ∈ cropCloud latlons targets ↔
      (p ∈ latlons ∧ (cropBox latlons targets).1.1 ≤ p.1 ∧
        p.1 ≤ (cropBox latlons targets).1.2 ∧
        (cropBox latlons targets).2.1 ≤ p.2 ∧
        p.2 ≤ (cropBox latlons targets).2.2) := by
    intro p
    simp [cropCloud, List.mem_filter, and_assoc]
  have hlow_hi : (cropBox latlons targets).1.1 ≤ (cropBox latlons targets).1.2 :=
    le_of_lt (lt_trans (lt_of_lt_of_le hA2 htf) hB2)
  have hlow_hi2 : (cropBox latlons targets).2.1 ≤ (cropBox latlons targets).2.2 :=
    le_of_lt (lt_trans (lt_of_lt_of_le hC2 htl) hD2)
  have hpt1 : ((cropBox latlons targets).1.1, (cropBox latlons targets).2.1)
      ∈ cropCloud latlons targets :=
    (hmemiff _).mpr ⟨(hprod _ _).mpr ⟨hA1, hC1⟩, le_refl _, hlow_hi,
      le_refl _, hlow_hi2⟩
  have hpt2 : ((cropBox latlons targets).1.2, (cropBox latlons targets).2.2)
      ∈ cropCloud latlons targets :=
    (hmemiff _).mpr ⟨(hprod _ _).mpr ⟨hB1, hD1⟩, hlow_hi, le_refl _,
      hlow_hi2, le_refl _⟩
  have r1 : aminQ ((cropCloud latlons targets).map Prod.fst)
      ≤ (cropBox latlons targets).1.1 :=
    aminQ_le (List.mem_map.mpr ⟨_, hpt1, rfl⟩)
  have r2 : (cropBox latlons targets).1.2
      ≤ amaxQ ((cropCloud latlons targets).map Prod.fst) :=
    le_amaxQ (List.mem_map.mpr ⟨_, hpt2, rfl⟩)
  have r3 : aminQ ((cropCloud latlons targets).map Prod.snd)
      ≤ (cropBox latlons targets).2.1 :=
    aminQ_le (List.mem_map.mpr ⟨_, hpt1, rfl⟩)
  have r4 : (cropBox latlons targets).2.2
      ≤ amaxQ ((cropCloud latlons targets).map Prod.snd) :=
    le_amaxQ (List.mem_map.mpr ⟨_, hpt2, rfl⟩)
  exact ⟨⟨hA1, hA2, hA3⟩, ⟨hB1, hB2, hB3⟩, ⟨hC1, hC2, hC3⟩, ⟨hD1, hD2, hD3⟩,
    hmemiff,
    List.ne_nil_of_mem hpt1,
    lt_of_le_of_lt r1 hA2, lt_of_lt_of_le hB2 r2,
    lt_of_le_of_lt r3 hC2, lt_of_lt_of_le hD2 r4⟩

set_option maxHeartbeats 2000000 in
/-- Witness for the amended C2 on the product grid
{0, 4, 10} x {-50, 0, 100} with the single target (5, 50). -/
theorem claim_C2_bbox_inclusion_witness :
    cropCloud [(0, -50), (0, 0), (0, 100), (4, -50), (4, 0), (4, 100),
        (10, -50), (10, 0), (10, 100)] [(5, 50)] ≠ [] ∧
    aminQ ((cropCloud [(0, -50), (0, 0), (0, 100), (4, -50), (4, 0), (4, 100),
        (10, -50), (10, 0), (10, 100)] [(5, 50)]).map Prod.fst)
      < aminQ (([(5, 50)] : List (Rat × Rat)).map Prod.fst) ∧
    amaxQ (([(5, 50)] : List (Rat × Rat)).map Prod.fst)
      < amaxQ ((cropCloud [(0, -50), (0, 0), (0, 100), (4, -50), (4, 0),
          (4, 100), (10, -50), (10, 0), (10, 100)] [(5, 50)]).map Prod.fst) ∧
    aminQ ((cropCloud [(0, -50), (0, 0), (0, 100), (4, -50), (4, 0), (4, 100),
        (10, -50), (10, 0), (10, 100)] [(5, 50)]).map Prod.snd)
      < aminQ (([(5, 50)] : List (Rat × Rat)).map Prod.snd) ∧
    amaxQ (([(5, 50)] : List (Rat × Rat)).map Prod.snd)
      < amaxQ ((cropCloud [(0, -50), (0, 0), (0, 100), (4, -50), (4, 0),
          (4, 100), (10, -50), (10, 0), (10, 100)] [(5, 50)]).map Prod.snd) :=
  (claim_C2_bbox_inclusion
    [(0, -50), (0, 0), (0, 100), (4, -50), (4, 0), (4, 100),
      (10, -50), (10, 0), (10, 100)] [(5, 50)]
    (by decide) (by decide)
    (by
      intro a b
      simp [Prod.ext_iff]
      tauto)
    (by decide) (by decide) (by decide) (by decide)).2.2.2.2.2

end Ensembles
